import Mathlib

/-!
# Verification of the RDS PostgreSQL single-user rotation lambda

A shallow embedding of `lambda_function.py`
(SecretsManagerRDSPostgreSQLRotationSingleUser) and proofs about it.

Modelling conventions:
* A Python secret dictionary (parsed JSON) is an association list from
  string keys to `JVal` values (string / bool / integer / null), preserving
  insertion order as Python dicts do.
* The vault (AWS Secrets Manager) is a list of versions; each version has
  an id, a secret dictionary and a list of stage labels.
* The outside world (`pgdb.connect`, the RDS directory, the master-secret
  store, `get_random_password`, `quote_ident`) is an explicit environment
  `Env`.  A connection attempt outcome is determined by the transport layer
  (`Env.net`, per host and SSL mode) and by the database role catalog:
  following PyGreSQL, authentication and network failures surface as
  `pg.InternalError`; anything else is an "other" exception.
* The mutable world threaded through the database-touching functions is
  `St`: the role catalog, the number of currently open sessions, and a log
  of issued effects (connection attempts, role creations, password
  alterations).  Python exceptions do not undo side effects, so errors
  carry the state at raise time: results live in
  `Except (Err × St) (α × St)`.
-/

namespace Rot

/-- A parsed JSON value as it appears in a secret dictionary. -/
inductive JVal where
  | str (s : String)
  | bool (b : Bool)
  | num (n : Int)
  | null
deriving DecidableEq, Repr

/-- A Python dict parsed from the secret JSON: ordered key/value pairs. -/
abbrev SecretDict := List (String × JVal)

/-- Lookup `d[k]` as an option (first binding wins, as in a dict). -/
def lookupd (d : SecretDict) (k : String) : Option JVal :=
  (d.find? (fun p => p.1 == k)).map (fun p => p.2)

/-- Membership test `k in d`. -/
def hasKey (d : SecretDict) (k : String) : Bool :=
  (lookupd d k).isSome

/-- Python `d.get(k)` (defaulting to `None`). -/
def getd (d : SecretDict) (k : String) : JVal :=
  (lookupd d k).getD JVal.null

/-- Python truthiness of a JSON value. -/
def truthy : JVal → Bool
  | .str s => s != ""
  | .bool b => b
  | .num n => n != 0
  | .null => false

/-- Python `d[k] = v`: replace in place, or append a new binding. -/
def setk (d : SecretDict) (k : String) (v : JVal) : SecretDict :=
  if hasKey d k then d.map (fun p => if p.1 == k then (k, v) else p)
  else d ++ [(k, v)]

/-- Python `d.pop(k, None)`'s effect on the dict. -/
def erasek (d : SecretDict) (k : String) : SecretDict :=
  d.filter (fun p => p.1 != k)

/-- Python `str()` of a JSON value, used in `%s` formatting. -/
def pyStr : JVal → String
  | .str s => s
  | .bool true => "True"
  | .bool false => "False"
  | .num n => toString n
  | .null => "None"

/-- The error kinds the lambda can raise. -/
inductive Err where
  | notFound
  | keyError (msg : String)
  | valueError (msg : String)
  | otherError
deriving DecidableEq, Repr

/-- Observable effects issued against the database. -/
inductive Action where
  | connAttempt (host user dbname : JVal) (port : Int) (ssl : Bool)
  | createRole (name : JVal) (password : JVal)
  | alterPassword (name : JVal) (password : JVal)
deriving DecidableEq, Repr

/-- The database role catalog: role name with its current password. -/
structure Db where
  roles : List (String × String)
deriving DecidableEq, Repr

/-- The mutable world threaded through database-touching code. -/
structure St where
  db : Db
  openConns : Nat
  log : List Action
deriving DecidableEq, Repr

/-- Result of a stateful step; exceptions keep the state at raise time. -/
abbrev Res (α : Type) := Except (Err × St) (α × St)

/-- The state a result ends in, error or not. -/
def resSt {α : Type} : Res α → St
  | .ok (_, s) => s
  | .error (_, s) => s

/-- Whether the step returned normally. -/
def resOk {α : Type} : Res α → Bool
  | .ok _ => true
  | .error _ => false

/-- The boolean a `Res Bool` step returned (false if it raised). -/
def resConn : Res Bool → Bool
  | .ok (b, _) => b
  | .error _ => false

/-- Whether the step raised a `ValueError`. -/
def resIsValueError {α : Type} : Res α → Bool
  | .error (.valueError _, _) => true
  | _ => false

/-- Transport-level outcome of one `pgdb.connect` call. -/
inductive NetOutcome where
  | ok
  | errInternal
  | errOther
deriving DecidableEq, Repr

/-- Outcome of one driver-level connection attempt. -/
inductive AttemptRes where
  | ok
  | errInternal
  | raised (e : Err)
deriving DecidableEq, Repr

/-- The external collaborators of the lambda. -/
structure Env where
  /-- Transport outcome for a (host, use-SSL) pair. -/
  net : String → Bool → NetOutcome
  /-- The master-secret store: ARN to AWSCURRENT secret dictionary. -/
  master : String → Option SecretDict
  /-- RDS directory: instance id to (instance found, its replication
  source id if any); `none` models a lookup error or an empty result. -/
  rdsLookup : String → Option (Option String)
  /-- Result of `get_random_password`. -/
  randomPw : String
  /-- PostgreSQL `quote_ident`. -/
  quoteIdent : String → String

def recordAttempt (st : St) (host user dbname : JVal) (port : Int) (ssl : Bool) : St :=
  { st with log := st.log ++ [Action.connAttempt host user dbname port ssl] }

def openConn (st : St) : St :=
  { st with openConns := st.openConns + 1 }

def closeConn (st : St) : St :=
  { st with openConns := st.openConns - 1 }

/-- Extraction of the `pgdb.connect` keyword arguments from the dict;
a missing key is a `KeyError` raised before any attempt is issued. -/
def connArgs (d : SecretDict) : Except Err (String × String × String) :=
  match lookupd d "host" with
  | none => .error (.keyError "host")
  | some hv =>
    match lookupd d "username" with
    | none => .error (.keyError "username")
    | some uv =>
      match lookupd d "password" with
      | none => .error (.keyError "password")
      | some pv =>
        match hv with
        | .str h => .ok (h, pyStr uv, pyStr pv)
        | _ => .error .otherError

/-- One driver call: transport first, then authentication against the
role catalog.  Auth and network failures are `pg.InternalError`. -/
def netAttempt (env : Env) (db : Db) (h u p : String) (ssl : Bool) : AttemptRes :=
  match env.net h ssl with
  | .ok => if db.roles.contains (u, p) then .ok else .errInternal
  | .errInternal => .errInternal
  | .errOther => .raised .otherError

/-- The `use_ssl=False` body of `connect_and_authenticate`: one plain
attempt; `pg.InternalError` becomes `None`, other exceptions propagate. -/
def connect_plain (env : Env) (d : SecretDict) (dbname : JVal) (port : Int)
    (st : St) : Res Bool :=
  match connArgs d with
  | .error e => .error (e, st)
  | .ok (h, u, p) =>
    let st1 := recordAttempt st (.str h) (.str u) dbname port false
    match netAttempt env st.db h u p false with
    | .ok => .ok (true, openConn st1)
    | .errInternal => .ok (false, st1)
    | .raised e => .error (e, st1)

/-- Embeds `connect_and_authenticate`.  In the source the `use_ssl=True` branch
catches every exception and retries itself with `use_ssl=False`; that
recursive call is inlined here as `connect_plain`. -/
def connect_and_authenticate (env : Env) (d : SecretDict) (dbname : JVal)
    (port : Int) (useSsl : Bool) (st : St) : Res Bool :=
  if useSsl then
    match connArgs d with
    | .error _ => connect_plain env d dbname port st
    | .ok (h, u, p) =>
      let st1 := recordAttempt st (.str h) (.str u) dbname port true
      match netAttempt env st.db h u p true with
      | .ok => .ok (true, openConn st1)
      | _ => connect_plain env d dbname port st1
  else connect_plain env d dbname port st

/-- Python `str.lower()` for the ASCII strings compared here
(kernel-reducible, unlike `String.toLower`). -/
def lowerChar (c : Char) : Char :=
  if c.isUpper then Char.ofNat (c.toNat + 32) else c

def lowerStr (s : String) : String :=
  ⟨s.data.map lowerChar⟩

/-- Embeds `get_ssl_config`. -/
def get_ssl_config (d : SecretDict) : Bool × Bool :=
  match lookupd d "ssl" with
  | none => (true, true)
  | some (.bool b) => (b, false)
  | some (.str s) =>
    if lowerStr s = "true" then (true, false)
    else if lowerStr s = "false" then (false, false)
    else (true, true)
  | some _ => (true, true)

/-- Computes `int(secret_dict['port'])` with default 5432. -/
def getPort (d : SecretDict) : Except Err Int :=
  match lookupd d "port" with
  | none => .ok 5432
  | some (.num n) => .ok n
  | some (.str s) =>
    match s.toInt? with
    | some n => .ok n
    | none => .error (.valueError "invalid literal for int")
  | some (.bool b) => .ok (if b then 1 else 0)
  | some .null => .error .otherError

/-- Embeds `get_connection`. -/
def get_connection (env : Env) (d : SecretDict) (st : St) : Res Bool :=
  match getPort d with
  | .error e => .error (e, st)
  | .ok port =>
    let dbname := (lookupd d "dbname").getD (.str "postgres")
    let cfg := get_ssl_config d
    match connect_and_authenticate env d dbname port cfg.1 st with
    | .error es => .error es
    | .ok (true, st1) => .ok (true, st1)
    | .ok (false, st1) =>
      if cfg.2 then connect_plain env d dbname port st1
      else .ok (false, st1)

/-- Required fields and the engine check of `get_secret_dict`. -/
def requiredFields : List String := ["host", "username", "password", "engine"]

def engineSupported : JVal → Bool
  | .str s => s == "postgres" || s == "aurora-postgresql"
  | _ => false

def validateDict (d : SecretDict) : Except Err Unit :=
  match requiredFields.find? (fun f => !(hasKey d f)) with
  | some f => .error (.keyError (f ++ " key is missing from secret JSON"))
  | none =>
    if engineSupported (getd d "engine") then .ok ()
    else .error (.keyError "Database engine must be set to postgres in order to use this rotation lambda")

/-- A secret version in the vault. -/
structure Version where
  id : String
  dict : SecretDict
  stages : List String
deriving DecidableEq, Repr

abbrev Vault := List Version

/-- Version selection of `get_secret_value`: the version must carry the
stage and, when a token is given, also have that id. -/
def versionMatches (stage : String) (tok : Option String) (ver : Version) : Bool :=
  ver.stages.contains stage &&
    (match tok with
     | none => true
     | some t => ver.id == t)

/-- Version selection of `get_secret_value`: by stage, optionally also by id. -/
def findVersion (v : Vault) (stage : String) (tok : Option String) : Option Version :=
  v.find? (versionMatches stage tok)

/-- Embeds `get_secret_dict`. -/
def get_secret_dict (v : Vault) (stage : String) (tok : Option String)
    (master : Bool) : Except Err SecretDict :=
  match findVersion v stage tok with
  | none => .error .notFound
  | some ver =>
    if master then .ok ver.dict
    else
      match validateDict ver.dict with
      | .ok _ => .ok ver.dict
      | .error e => .error e

/-- Removing the AWSPENDING label from a version, as the vault does when
the label moves to a newly put version. -/
def stripPending (ver : Version) : Version :=
  { ver with stages := ver.stages.filter (fun s => s != "AWSPENDING") }

/-- Embeds `put_secret_value` with `VersionStages=['AWSPENDING']`: the AWSPENDING
label moves to the new version `token`. -/
def put_secret_value (v : Vault) (token : String) (d : SecretDict) : Vault :=
  ((v.filter (fun ver => ver.id != token)).map stripPending)
  ++ [⟨token, d, ["AWSPENDING"]⟩]

/-- Embeds `create_secret`; the boolean reports whether a put was performed. -/
def create_secret (env : Env) (v : Vault) (token : String) :
    Except Err (Vault × Bool) :=
  match get_secret_dict v "AWSCURRENT" none false with
  | .error e => .error e
  | .ok cd =>
    match get_secret_dict v "AWSPENDING" (some token) false with
    | .ok _ => .ok (v, false)
    | .error .notFound =>
      let nd := setk cd "password" (.str env.randomPw)
      .ok (put_secret_value v token nd, true)
    | .error e => .error e

/-- The scan loop of `finish_secret`: `none` means the early return (the
token's version already carries AWSCURRENT), `some cv` means proceed with
`current_version = cv`. -/
def finishScan (token : String) : Vault → Option (Option String)
  | [] => some none
  | ver :: rest =>
    if ver.stages.contains "AWSCURRENT" then
      (if ver.id == token then none else some (some ver.id))
    else finishScan token rest

/-- Embeds `update_secret_version_stage`: atomically move AWSCURRENT. -/
def update_stage (v : Vault) (toId : String) (fromId : Option String) : Vault :=
  v.map (fun ver =>
    let s1 := if some ver.id = fromId
              then ver.stages.filter (fun s => s != "AWSCURRENT")
              else ver.stages
    if ver.id = toId then { ver with stages := s1 ++ ["AWSCURRENT"] }
    else { ver with stages := s1 })

/-- Embeds `finish_secret`; the second component records the single
`update_secret_version_stage` call, if one was made. -/
def finish_secret (v : Vault) (token : String) :
    Vault × Option (String × Option String) :=
  match finishScan token v with
  | none => (v, none)
  | some cv => (update_stage v token cv, some (token, cv))

/-- The id of the first version carrying AWSCURRENT. -/
def firstCurrentId (v : Vault) : Option String :=
  (v.find? (fun ver => ver.stages.contains "AWSCURRENT")).map Version.id

/-- Embeds `is_rds_replica_database`. -/
def firstLabel (s : String) : String :=
  (s.splitOn ".").headD ""

def is_rds_replica_database (env : Env) (replica master : SecretDict) :
    Except Err Bool :=
  match lookupd replica "host" with
  | none => .error (.keyError "host")
  | some (.str rh) =>
    match lookupd master "host" with
    | none => .error (.keyError "host")
    | some (.str mh) =>
      match env.rdsLookup (firstLabel rh) with
      | none => .ok false
      | some srcOpt => .ok (decide (srcOpt = some (firstLabel mh)))
    | some _ => .error .otherError
  | some _ => .error .otherError

/-- The `for key, value in secret_dict.items()` backfill loop of
`create_user_if_not_exists`. -/
def backfill (m : SecretDict) (d : SecretDict) : SecretDict :=
  d.foldl (fun acc kv => if truthy (getd acc kv.1) then acc else setk acc kv.1 kv.2) m

/-- The tail of the `with conn.cursor()` block: after the role check
(and possible creation) the source's final log line indexes
`secret_dict['dbname']`, raising `KeyError` when the child has no dbname;
the `finally` closes the session on every exit. -/
def createUserFinishLog (d : SecretDict) (created : Bool) (st : St) : Res Bool :=
  match lookupd d "dbname" with
  | none => .error (.keyError "dbname", closeConn st)
  | some _ => .ok (created, closeConn st)

/-- The connected part of `create_user_if_not_exists`: log in with the
master credentials, check the role catalog, create the role if absent. -/
def createUserConnect (env : Env) (d md : SecretDict) (marn : String)
    (st : St) : Res Bool :=
  match get_connection env md st with
  | .error es => .error es
  | .ok (false, st1) =>
    .error (.valueError ("Unable to log into database using credentials in master secret " ++ marn), st1)
  | .ok (true, st1) =>
    match lookupd d "username" with
    | none => .error (.keyError "username", closeConn st1)
    | some uv =>
      if st1.db.roles.any (fun r => r.1 == pyStr uv) then
        createUserFinishLog d false st1
      else
        match lookupd d "password" with
        | none => .error (.keyError "password", closeConn st1)
        | some pv =>
          createUserFinishLog d true
            { st1 with
              db := ⟨st1.db.roles ++ [(pyStr uv, pyStr pv)]⟩,
              log := st1.log ++ [Action.createRole (.str (env.quoteIdent (pyStr uv))) pv] }

/-- Embeds `create_user_if_not_exists`. -/
def create_user_if_not_exists (env : Env) (d : SecretDict) (st : St) : Res Bool :=
  match lookupd d "masterarn" with
  | none => .ok (false, st)
  | some mv =>
    if truthy mv then
      match mv with
      | .str marn =>
        match env.master marn with
        | none => .error (.notFound, st)
        | some md0 =>
          let md1 := backfill md0 d
          let md2 := setk md1 "dbname" (getd d "dbname")
          match lookupd d "host", lookupd md2 "host" with
          | some ch, some mh =>
            if ch ≠ mh then
              match is_rds_replica_database env d md2 with
              | .error e => .error (e, st)
              | .ok true => createUserConnect env d md2 marn st
              | .ok false =>
                .error (.valueError ("Current database host " ++ pyStr ch ++ " is not the same host as/rds replica of master " ++ pyStr mh), st)
            else createUserConnect env d md2 marn st
          | _, _ => .error (.keyError "host", st)
      | _ => .error (.otherError, st)
    else .ok (false, st)

/-- Update the password of an existing role. -/
def alterRolePw (roles : List (String × String)) (u p : String) :
    List (String × String) :=
  roles.map (fun r => if r.1 == u then (r.1, p) else r)

/-- The final `ALTER USER ... WITH PASSWORD` block of `set_secret`, run
with whichever session succeeded; the `finally` closes the session. -/
def alterFinish (env : Env) (pd : SecretDict) (conn : Bool) (st : St) : Res Unit :=
  if conn then
    match lookupd pd "username" with
    | none => .error (.keyError "username", closeConn st)
    | some uv =>
      match lookupd pd "password" with
      | none => .error (.keyError "password", closeConn st)
      | some pv =>
        if st.db.roles.any (fun r => r.1 == pyStr uv) then
          .ok ((), closeConn
            { st with
              db := ⟨alterRolePw st.db.roles (pyStr uv) (pyStr pv)⟩,
              log := st.log ++ [Action.alterPassword (.str (env.quoteIdent (pyStr uv))) pv] })
        else .error (.otherError, closeConn st)
  else
    .error (.valueError "Unable to log into database with previous, current, or pending secret", st)

/-- The `if not conn and previous_dict:` fallback of `set_secret`.  Note
that when the mismatch errors fire, the session just opened with the
PREVIOUS credentials is not closed. -/
def setSecretPrevFallback (env : Env) (cd pd : SecretDict)
    (previous : Option SecretDict) (connC : Bool) (st : St) : Res Unit :=
  match previous with
  | none => alterFinish env pd connC st
  | some prev =>
    if connC then alterFinish env pd true st
    else
      let prev1 := erasek prev "ssl"
      let prev2 := if hasKey cd "ssl" then setk prev1 "ssl" (getd cd "ssl") else prev1
      match get_connection env prev2 st with
      | .error es => .error es
      | .ok (connP, st1) =>
        if lookupd prev2 "username" ≠ lookupd pd "username" then
          .error (.valueError ("Attempting to modify user " ++ pyStr (getd pd "username") ++ " other than previous valid user " ++ pyStr (getd prev2 "username")), st1)
        else if lookupd prev2 "host" ≠ lookupd pd "host" then
          .error (.valueError ("Attempting to modify user for host " ++ pyStr (getd pd "host") ++ " other than current previous valid " ++ pyStr (getd prev2 "host")), st1)
        else alterFinish env pd connP st1

/-- Embeds `set_secret`. -/
def set_secret (env : Env) (v : Vault) (token : String) (st : St) : Res Unit :=
  let previous : Option SecretDict :=
    match get_secret_dict v "AWSPREVIOUS" none false with
    | .ok d => some d
    | .error _ => none
  match get_secret_dict v "AWSCURRENT" none false with
  | .error e => .error (e, st)
  | .ok cd =>
    match get_secret_dict v "AWSPENDING" (some token) false with
    | .error e => .error (e, st)
    | .ok pd =>
      match create_user_if_not_exists env cd st with
      | .error es => .error es
      | .ok (_, st1) =>
        match get_connection env pd st1 with
        | .error es => .error es
        | .ok (true, st2) => .ok ((), closeConn st2)
        | .ok (false, st2) =>
          if lookupd cd "username" ≠ lookupd pd "username" then
            .error (.valueError ("Attempting to modify user " ++ pyStr (getd pd "username") ++ " other than current user " ++ pyStr (getd cd "username")), st2)
          else if lookupd cd "host" ≠ lookupd pd "host" then
            .error (.valueError ("Attempting to modify user for host " ++ pyStr (getd pd "host") ++ " other than current host " ++ pyStr (getd cd "host")), st2)
          else
            match get_connection env cd st2 with
            | .error es => .error es
            | .ok (connC, st3) => setSecretPrevFallback env cd pd previous connC st3

/-- Embeds `test_secret`. -/
def test_secret (env : Env) (v : Vault) (token : String) (st : St) : Res Unit :=
  match get_secret_dict v "AWSPENDING" (some token) false with
  | .error e => .error (e, st)
  | .ok pd =>
    match get_connection env pd st with
    | .error es => .error es
    | .ok (true, st1) => .ok ((), closeConn st1)
    | .ok (false, st1) =>
      .error (.valueError "Unable to log into database with pending secret", st1)

/-- Classifiers for logged actions. -/
def isConnAttempt : Action → Bool
  | .connAttempt _ _ _ _ _ => true
  | _ => false

def isAlter : Action → Bool
  | .alterPassword _ _ => true
  | _ => false

/-! ## Small step lemmas about the state operations -/

@[simp] theorem recordAttempt_db (st : St) (h u dn : JVal) (p : Int) (s : Bool) :
    (recordAttempt st h u dn p s).db = st.db := rfl

@[simp] theorem recordAttempt_log (st : St) (h u dn : JVal) (p : Int) (s : Bool) :
    (recordAttempt st h u dn p s).log = st.log ++ [Action.connAttempt h u dn p s] := rfl

@[simp] theorem openConn_db (st : St) : (openConn st).db = st.db := rfl

@[simp] theorem openConn_log (st : St) : (openConn st).log = st.log := rfl

@[simp] theorem closeConn_db (st : St) : (closeConn st).db = st.db := rfl

@[simp] theorem closeConn_log (st : St) : (closeConn st).log = st.log := rfl

/-- State `st2` differs from `st1` only by logged connection attempts. -/
def connOnly (st1 st2 : St) : Prop :=
  st2.db = st1.db ∧
  ∃ t, st2.log = st1.log ++ t ∧ ∀ a ∈ t, isConnAttempt a = true

/-- State `st2` extends the log of `st1` without any password alteration. -/
def noAlterStep (st1 st2 : St) : Prop :=
  ∃ t, st2.log = st1.log ++ t ∧ ∀ a ∈ t, isAlter a = false

theorem connOnly_refl (st : St) : connOnly st st :=
  ⟨rfl, [], by simp, by simp⟩

theorem connOnly_trans {s1 s2 s3 : St} (h12 : connOnly s1 s2)
    (h23 : connOnly s2 s3) : connOnly s1 s3 := by
  obtain ⟨hdb12, t1, hl1, ha1⟩ := h12
  obtain ⟨hdb23, t2, hl2, ha2⟩ := h23
  refine ⟨hdb23.trans hdb12, t1 ++ t2, ?_, ?_⟩
  · rw [hl2, hl1, List.append_assoc]
  · intro a ha
    rcases List.mem_append.mp ha with h | h
    · exact ha1 a h
    · exact ha2 a h

theorem connOnly_record (st : St) (h u dn : JVal) (p : Int) (s : Bool) :
    connOnly st (recordAttempt st h u dn p s) :=
  ⟨rfl, [Action.connAttempt h u dn p s], rfl, by simp [isConnAttempt]⟩

theorem connOnly_openConn {st st' : St} (h : connOnly st st') :
    connOnly st (openConn st') := h

theorem connOnly_closeConn {st st' : St} (h : connOnly st st') :
    connOnly st (closeConn st') := h

theorem noAlterStep_of_connOnly {s1 s2 : St} (h : connOnly s1 s2) :
    noAlterStep s1 s2 := by
  obtain ⟨_, t, hl, ha⟩ := h
  refine ⟨t, hl, fun a hm => ?_⟩
  have := ha a hm
  cases a <;> simp_all [isConnAttempt, isAlter]

theorem noAlterStep_refl (st : St) : noAlterStep st st :=
  ⟨[], by simp, by simp⟩

theorem noAlterStep_trans {s1 s2 s3 : St} (h12 : noAlterStep s1 s2)
    (h23 : noAlterStep s2 s3) : noAlterStep s1 s3 := by
  obtain ⟨t1, hl1, ha1⟩ := h12
  obtain ⟨t2, hl2, ha2⟩ := h23
  refine ⟨t1 ++ t2, by rw [hl2, hl1, List.append_assoc], ?_⟩
  intro a ha
  rcases List.mem_append.mp ha with h | h
  · exact ha1 a h
  · exact ha2 a h

/-- The step `connect_plain` only logs connection attempts. -/
theorem connect_plain_connOnly (env : Env) (d : SecretDict) (dn : JVal)
    (port : Int) (st : St) :
    connOnly st (resSt (connect_plain env d dn port st)) := by
  unfold connect_plain
  split
  · exact connOnly_refl st
  · split
    · exact connOnly_openConn (connOnly_record ..)
    · exact connOnly_record ..
    · exact connOnly_record ..

/-- The step `connect_and_authenticate` only logs connection attempts. -/
theorem caa_connOnly (env : Env) (d : SecretDict) (dn : JVal) (port : Int)
    (useSsl : Bool) (st : St) :
    connOnly st (resSt (connect_and_authenticate env d dn port useSsl st)) := by
  unfold connect_and_authenticate
  split
  · split
    · exact connect_plain_connOnly ..
    · split
      · exact connOnly_openConn (connOnly_record ..)
      · exact connOnly_trans (connOnly_record ..) (connect_plain_connOnly ..)
  · exact connect_plain_connOnly ..

/-- The step `get_connection` only logs connection attempts and never touches the
role catalog. -/
theorem get_connection_connOnly (env : Env) (d : SecretDict) (st : St) :
    connOnly st (resSt (get_connection env d st)) := by
  unfold get_connection
  split
  · exact connOnly_refl st
  · rename_i port hport
    rcases hc : connect_and_authenticate env d ((lookupd d "dbname").getD (.str "postgres"))
        port (get_ssl_config d).1 st with ⟨e, s⟩ | ⟨b, s⟩
    · have := caa_connOnly env d ((lookupd d "dbname").getD (.str "postgres"))
        port (get_ssl_config d).1 st
      rw [hc] at this
      simpa [hc] using this
    · have hcaa := caa_connOnly env d ((lookupd d "dbname").getD (.str "postgres"))
        port (get_ssl_config d).1 st
      rw [hc] at hcaa
      cases b
      · simp only [hc]
        split
        · exact connOnly_trans hcaa (connect_plain_connOnly ..)
        · exact hcaa
      · simpa [hc] using hcaa

/-- The step `createUserConnect` never logs a password alteration. -/
theorem createUserConnect_noAlter (env : Env) (d md : SecretDict)
    (marn : String) (st : St) :
    noAlterStep st (resSt (createUserConnect env d md marn st)) := by
  have hg := noAlterStep_of_connOnly (get_connection_connOnly env md st)
  unfold createUserConnect
  rcases hc : get_connection env md st with ⟨e, s⟩ | ⟨b, s⟩
  · rw [hc] at hg; simp only [hc]; exact hg
  · rw [hc] at hg
    cases b
    · simp only [hc]; exact hg
    · simp only [hc]
      split
      · exact hg
      · rename_i uv huv
        split
        · unfold createUserFinishLog
          split
          · exact hg
          · exact hg
        · split
          · exact hg
          · rename_i pv hpv
            unfold createUserFinishLog
            split
            · exact noAlterStep_trans hg ⟨[Action.createRole (.str (env.quoteIdent (pyStr uv))) pv], rfl, by simp [isAlter]⟩
            · exact noAlterStep_trans hg ⟨[Action.createRole (.str (env.quoteIdent (pyStr uv))) pv], rfl, by simp [isAlter]⟩

/-- The step `create_user_if_not_exists` never logs a password alteration. -/
theorem create_user_noAlter (env : Env) (d : SecretDict) (st : St) :
    noAlterStep st (resSt (create_user_if_not_exists env d st)) := by
  simp only [create_user_if_not_exists]
  repeat
    first
    | exact noAlterStep_refl st
    | exact createUserConnect_noAlter ..
    | split

/-! ## Concrete scenarios used by the claim theorems -/

/-- A world where the SSL handshake to every host fails, the plaintext
connection succeeds, and role `u`/`p` exists. -/
def envC1 : Env where
  net := fun _ ssl => if ssl then .errInternal else .ok
  master := fun _ => none
  rdsLookup := fun _ => none
  randomPw := "RPW"
  quoteIdent := id

/-- A secret record with the boolean `ssl: true`, so the resolved policy
disallows fallback. -/
def dC1 : SecretDict :=
  [("engine", .str "postgres"), ("host", .str "h"), ("username", .str "u"),
   ("password", .str "p"), ("ssl", .bool true)]

def stC1 : St := ⟨⟨[("u", "p")]⟩, 0, []⟩

def mdA : SecretDict := [("username", .str "root"), ("password", .str "rp")]

/-- A world for the `set_secret` scenarios: every transport works, the
master secret `m` holds the `root` credentials. -/
def envA : Env where
  net := fun _ _ => .ok
  master := fun s => if s = "m" then some mdA else none
  rdsLookup := fun _ => none
  randomPw := "RPW"
  quoteIdent := id

/-- CURRENT secret: user `a`, master-managed. -/
def cdA : SecretDict :=
  [("engine", .str "postgres"), ("host", .str "h"), ("username", .str "a"),
   ("password", .str "p"), ("masterarn", .str "m"), ("dbname", .str "mydb")]

/-- PENDING secret: user `b` — a different user than CURRENT. -/
def pdA : SecretDict :=
  [("engine", .str "postgres"), ("host", .str "h"), ("username", .str "b"),
   ("password", .str "q")]

def vaultA : Vault := [⟨"v0", cdA, ["AWSCURRENT"]⟩, ⟨"t1", pdA, ["AWSPENDING"]⟩]

/-- Role catalog: PENDING's credentials and the master's already work;
CURRENT's user `a` does not exist yet. -/
def stA : St := ⟨⟨[("b", "q"), ("root", "rp")]⟩, 0, []⟩

/-- A world for the PREVIOUS-fallback leak: every transport works. -/
def envB : Env where
  net := fun _ _ => .ok
  master := fun _ => none
  rdsLookup := fun _ => none
  randomPw := "RPW"
  quoteIdent := id

def prevB : SecretDict :=
  [("engine", .str "postgres"), ("host", .str "h"), ("username", .str "old"),
   ("password", .str "op")]

def cdB : SecretDict :=
  [("engine", .str "postgres"), ("host", .str "h"), ("username", .str "u"),
   ("password", .str "cp")]

def pdB : SecretDict :=
  [("engine", .str "postgres"), ("host", .str "h"), ("username", .str "u"),
   ("password", .str "np")]

def vaultB : Vault :=
  [⟨"vp", prevB, ["AWSPREVIOUS"]⟩, ⟨"vc", cdB, ["AWSCURRENT"]⟩,
   ⟨"t3", pdB, ["AWSPENDING"]⟩]

/-- Only the PREVIOUS credentials authenticate. -/
def stB : St := ⟨⟨[("old", "op")]⟩, 0, []⟩

/-- C1: with `ssl: true` (boolean) the resolved policy is
(use_ssl=true, fall_back=false), yet when the encrypted attempt fails
`get_connection` issues an unencrypted attempt anyway (inside
`connect_and_authenticate`) and returns that session instead of null.
This contradicts the claim (and the source's own docstrings): the code's
internal non-SSL retry ignores the fall_back policy. -/
theorem c1_ssl_no_fallback_violated :
    get_ssl_config dC1 = (true, false) ∧
    resConn (get_connection envC1 dC1 stC1) = true ∧
    (resSt (get_connection envC1 dC1 stC1)).log =
      [Action.connAttempt (.str "h") (.str "u") (.str "postgres") 5432 true,
       Action.connAttempt (.str "h") (.str "u") (.str "postgres") 5432 false] := by
  decide

/-- C2 counterexample: the AWSPENDING secret (`b`/`q`) already
authenticates against the database, yet invoking `set_secret` creates the
role `a` (CURRENT's master-managed user), a database mutation.  The
provisioning call runs before the PENDING no-op check. -/
theorem c2_counterexample :
    resConn (get_connection envA pdA stA) = true ∧
    resOk (set_secret envA vaultA "t1" stA) = true ∧
    Action.createRole (.str "a") (.str "p") ∈ (resSt (set_secret envA vaultA "t1" stA)).log ∧
    (resSt (set_secret envA vaultA "t1" stA)).db ≠ stA.db := by
  decide

/-- C3: when PENDING and CURRENT fail to authenticate and the PREVIOUS
credentials succeed but PREVIOUS's username differs from PENDING's,
`set_secret` raises the mismatch `ValueError` while the session opened
with the PREVIOUS credentials is still open — the session is leaked,
contradicting the claim (which matches the spec's stated intent and the
`try`/`finally` discipline of every other path in the source). -/
theorem c3_session_leak :
    resIsValueError (set_secret envB vaultB "t3" stB) = true ∧
    stB.openConns = 0 ∧
    (resSt (set_secret envB vaultB "t3" stB)).openConns = 1 := by
  decide

/-- C4 counterexample: PENDING's username `b` differs from CURRENT's
username `a`, yet `set_secret` returns success (because PENDING already
authenticates, the early return fires before the mismatch check), so it
does not fail with PolicyViolation. -/
theorem c4_counterexample :
    lookupd cdA "username" ≠ lookupd pdA "username" ∧
    resOk (set_secret envA vaultA "t1" stA) = true ∧
    resIsValueError (set_secret envA vaultA "t1" stA) = false := by
  decide

/-- C9: `get_ssl_config` resolves the tri-state `ssl` field exactly as the
claim states: absent key or non-bool/non-string value or unrecognized
string gives (true, true); a boolean gives (that value, false); a string
equal to true/false ignoring case gives (parsed value, false). -/
theorem c9_ssl_config (d : SecretDict) :
    (lookupd d "ssl" = none → get_ssl_config d = (true, true)) ∧
    (∀ b, lookupd d "ssl" = some (.bool b) → get_ssl_config d = (b, false)) ∧
    (∀ s, lookupd d "ssl" = some (.str s) →
      (lowerStr s = "true" → get_ssl_config d = (true, false)) ∧
      (lowerStr s = "false" → get_ssl_config d = (false, false)) ∧
      (lowerStr s ≠ "true" → lowerStr s ≠ "false" → get_ssl_config d = (true, true))) ∧
    (∀ n, lookupd d "ssl" = some (.num n) → get_ssl_config d = (true, true)) ∧
    (lookupd d "ssl" = some .null → get_ssl_config d = (true, true)) := by
  refine ⟨?_, ?_, ?_, ?_, ?_⟩
  · intro h; simp [get_ssl_config, h]
  · intro b h; simp [get_ssl_config, h]
  · intro s h
    refine ⟨?_, ?_, ?_⟩
    · intro ht; simp [get_ssl_config, h, ht]
    · intro hf; simp [get_ssl_config, h, hf]
    · intro ht hf; simp [get_ssl_config, h, ht, hf]
  · intro n h; simp [get_ssl_config, h]
  · intro h; simp [get_ssl_config, h]

/-- C9 witness: the string "FALSE" resolves to unencrypted, no fallback. -/
theorem c9_witness :
    get_ssl_config [("ssl", JVal.str "FALSE")] = (false, false) :=
  ((c9_ssl_config [("ssl", JVal.str "FALSE")]).2.2.1 "FALSE" rfl).2.1 (by decide)

/-- C2 as amended: when the AWSPENDING secret already authenticates *and
CURRENT carries no master reference*, `set_secret` succeeds with no
database mutation: the role catalog is unchanged and nothing but
connection attempts is logged.  (The masterarn restriction is forced by
`c2_counterexample`: the provisioning call for CURRENT runs before the
PENDING no-op check and may create a role.) -/
theorem c2_amended (env : Env) (v : Vault) (token : String) (st : St)
    (cd pd : SecretDict) (st2 : St)
    (H1 : get_secret_dict v "AWSCURRENT" none false = .ok cd)
    (H2 : get_secret_dict v "AWSPENDING" (some token) false = .ok pd)
    (H3 : lookupd cd "masterarn" = none)
    (H4 : get_connection env pd st = .ok (true, st2)) :
    set_secret env v token st = .ok ((), closeConn st2) ∧
    (closeConn st2).db = st.db ∧
    (∀ a, a ∈ (closeConn st2).log → a ∈ st.log ∨ isConnAttempt a = true) := by
  have hcu : create_user_if_not_exists env cd st = .ok (false, st) := by
    unfold create_user_if_not_exists
    rw [H3]
  have hco : connOnly st st2 := by
    have h := get_connection_connOnly env pd st
    rw [H4] at h
    exact h
  refine ⟨?_, hco.1, ?_⟩
  · simp only [set_secret, H1, H2, hcu, H4]
  · obtain ⟨t, hlog, hall⟩ := hco.2
    intro a ha
    simp only [closeConn_log, hlog] at ha
    rcases List.mem_append.mp ha with h | h
    · exact Or.inl h
    · exact Or.inr (hall a h)

def stW2 : St := ⟨⟨[("u", "np")]⟩, 0, []⟩

def stW2conn : St :=
  ⟨⟨[("u", "np")]⟩, 1,
   [Action.connAttempt (.str "h") (.str "u") (.str "postgres") 5432 true]⟩

/-- C2 amended witness at a concrete no-masterarn vault whose PENDING
credentials already authenticate. -/
theorem c2_amended_witness :
    set_secret envB vaultB "t3" stW2 = .ok ((), closeConn stW2conn) :=
  (c2_amended envB vaultB "t3" stW2 cdB pdB stW2conn rfl rfl rfl rfl).1

/-- The PolicyViolation message `set_secret` raises for a mismatched
PENDING/CURRENT pair (username first, then host, as in the source). -/
def mismatchMsg (cd pd : SecretDict) : String :=
  if lookupd cd "username" ≠ lookupd pd "username" then
    "Attempting to modify user " ++ pyStr (getd pd "username") ++ " other than current user " ++ pyStr (getd cd "username")
  else
    "Attempting to modify user for host " ++ pyStr (getd pd "host") ++ " other than current host " ++ pyStr (getd cd "host")

/-- C4 as amended: when PENDING does not already authenticate and the
user-provisioning step completes, a PENDING whose username (or, with
equal usernames, whose host) differs from CURRENT's makes `set_secret`
fail with the PolicyViolation `ValueError`, and the password-alteration
statement is never issued.  (The no-authentication condition is forced by
`c4_counterexample`: an authenticating PENDING returns success before the
mismatch check.) -/
theorem c4_amended (env : Env) (v : Vault) (token : String) (st : St)
    (cd pd : SecretDict) (b : Bool) (st1 st2 : St)
    (H1 : get_secret_dict v "AWSCURRENT" none false = .ok cd)
    (H2 : get_secret_dict v "AWSPENDING" (some token) false = .ok pd)
    (H3 : create_user_if_not_exists env cd st = .ok (b, st1))
    (H4 : get_connection env pd st1 = .ok (false, st2))
    (H5 : lookupd cd "username" ≠ lookupd pd "username" ∨
          (lookupd cd "username" = lookupd pd "username" ∧
           lookupd cd "host" ≠ lookupd pd "host")) :
    set_secret env v token st = .error (.valueError (mismatchMsg cd pd), st2) ∧
    (∀ a, a ∈ st2.log → a ∈ st.log ∨ isAlter a = false) := by
  have hna1 : noAlterStep st st1 := by
    have h := create_user_noAlter env cd st
    rw [H3] at h; exact h
  have hna2 : noAlterStep st1 st2 := by
    have h := noAlterStep_of_connOnly (get_connection_connOnly env pd st1)
    rw [H4] at h; exact h
  obtain ⟨t, hlog, hall⟩ := noAlterStep_trans hna1 hna2
  constructor
  · rcases H5 with h5 | ⟨h5a, h5b⟩
    · simp [set_secret, H1, H2, H3, H4, mismatchMsg, h5]
    · simp [set_secret, H1, H2, H3, H4, mismatchMsg, h5a, h5b]
  · intro a ha
    rw [hlog] at ha
    rcases List.mem_append.mp ha with h | h
    · exact Or.inl h
    · exact Or.inr (hall a h)

def stW4 : St := ⟨⟨[("root", "rp")]⟩, 0, []⟩

def stW4cu : St :=
  ⟨⟨[("root", "rp"), ("a", "p")]⟩, 0,
   [Action.connAttempt (.str "h") (.str "root") (.str "mydb") 5432 true,
    Action.createRole (.str "a") (.str "p")]⟩

def stW4conn : St :=
  ⟨⟨[("root", "rp"), ("a", "p")]⟩, 0,
   [Action.connAttempt (.str "h") (.str "root") (.str "mydb") 5432 true,
    Action.createRole (.str "a") (.str "p"),
    Action.connAttempt (.str "h") (.str "b") (.str "postgres") 5432 true,
    Action.connAttempt (.str "h") (.str "b") (.str "postgres") 5432 false,
    Action.connAttempt (.str "h") (.str "b") (.str "postgres") 5432 false]⟩

/-- C4 amended witness at a concrete vault where PENDING's user `b`
differs from CURRENT's user `a` and PENDING does not authenticate. -/
theorem c4_amended_witness :
    set_secret envA vaultA "t1" stW4 =
      .error (.valueError (mismatchMsg cdA pdA), stW4conn) :=
  (c4_amended envA vaultA "t1" stW4 cdA pdA true stW4cu stW4conn
    rfl rfl rfl rfl (Or.inl (by decide))).1

theorem find?_map_setk_ne (d : SecretDict) (k k' : String) (v : JVal) (h : k' ≠ k) :
    (d.map (fun p => if p.1 == k then (k, v) else p)).find? (fun p => p.1 == k') =
      ((d.find? (fun p => p.1 == k')).map (fun p => if p.1 == k then (k, v) else p)) := by
  induction d with
  | nil => rfl
  | cons p tl ih =>
    by_cases hk : p.1 = k
    · rw [List.map_cons,
          List.find?_cons_of_neg _ (by simp [hk]; exact Ne.symm h),
          List.find?_cons_of_neg _ (by simp [hk]; exact Ne.symm h)]
      exact ih
    · by_cases hx : p.1 = k'
      · rw [List.map_cons,
            List.find?_cons_of_pos _ (by simp [hk, hx, h]),
            List.find?_cons_of_pos _ (by simp [hx])]
        rfl
      · rw [List.map_cons,
            List.find?_cons_of_neg _ (by simp [hk, hx]),
            List.find?_cons_of_neg _ (by simp [hx])]
        exact ih

theorem lookupd_setk_ne (d : SecretDict) (k k' : String) (v : JVal) (h : k' ≠ k) :
    lookupd (setk d k v) k' = lookupd d k' := by
  unfold setk
  split
  · unfold lookupd
    rw [find?_map_setk_ne d k k' v h]
    rcases hf : d.find? (fun p => p.1 == k') with _ | p
    · rw [hf]
      rfl
    · rw [hf]
      have hp := List.find?_some hf
      have hpe : p.1 = k' := by simpa using hp
      simp [hpe, Ne.symm h, h]
  · unfold lookupd
    rw [List.find?_append]
    have h1 : ((k, v).1 == k') = false := by
      simp
      exact Ne.symm h
    simp [List.find?, h1]

theorem find?_map_setk_self (d : SecretDict) (k : String) (v : JVal)
    (hhk : d.find? (fun p => p.1 == k) ≠ none) :
    (d.map (fun p => if p.1 == k then (k, v) else p)).find? (fun p => p.1 == k) =
      some (k, v) := by
  induction d with
  | nil => simp at hhk
  | cons p tl ih =>
    by_cases hk : p.1 = k
    · rw [List.map_cons, List.find?_cons_of_pos _ (by simp [hk])]
      simp [hk]
    · rw [List.map_cons, List.find?_cons_of_neg _ (by simp [hk])]
      apply ih
      rw [List.find?_cons_of_neg _ (by simp [hk])] at hhk
      exact hhk

theorem lookupd_setk_eq (d : SecretDict) (k : String) (v : JVal) :
    lookupd (setk d k v) k = some v := by
  unfold setk
  split
  · rename_i hhk
    have hne : d.find? (fun p => p.1 == k) ≠ none := by
      intro hnone
      unfold hasKey lookupd at hhk
      rw [hnone] at hhk
      simp at hhk
    unfold lookupd
    rw [find?_map_setk_self d k v hne]
    rfl
  · rename_i hhk
    have hnone : d.find? (fun p => p.1 == k) = none := by
      rcases hf : d.find? (fun p => p.1 == k) with _ | p
      · exact hf
      · exfalso
        unfold hasKey lookupd at hhk
        rw [hf] at hhk
        simp at hhk
    unfold lookupd
    rw [List.find?_append, hnone]
    simp [List.find?]

theorem getd_setk_ne (d : SecretDict) (k k' : String) (v : JVal) (h : k' ≠ k) :
    getd (setk d k v) k' = getd d k' := by
  unfold getd
  rw [lookupd_setk_ne d k k' v h]

theorem backfill_keeps (d : SecretDict) : ∀ (m : SecretDict) (k : String),
    truthy (getd m k) = true → lookupd (backfill m d) k = lookupd m k := by
  induction d with
  | nil => intro m k _; rfl
  | cons e tl ih =>
    intro m k h
    have hstep : backfill m (e :: tl) =
        backfill (if truthy (getd m e.1) then m else setk m e.1 e.2) tl := rfl
    rw [hstep]
    by_cases he : truthy (getd m e.1)
    · rw [if_pos he]
      exact ih m k h
    · rw [if_neg he]
      by_cases hk : e.1 = k
      · subst hk
        exact absurd h he
      · have hl : lookupd (setk m e.1 e.2) k = lookupd m k :=
          lookupd_setk_ne m e.1 k e.2 (fun hh => hk hh.symm)
        have hg : truthy (getd (setk m e.1 e.2) k) = true := by
          unfold getd
          rw [hl]
          exact h
        rw [ih (setk m e.1 e.2) k hg, hl]

/-- C5: a child secret whose `masterarn` names a master secret on a
different, non-empty host, for which the replica directory does not
report the child as a read-replica of the master, makes
`create_user_if_not_exists` fail with the PolicyViolation `ValueError`
with the state unchanged — in particular no database connection attempt
is issued on this path. -/
theorem c5_replica_policy (env : Env) (d md0 : SecretDict) (st : St)
    (marn hc hm : String)
    (Hma : lookupd d "masterarn" = some (.str marn))
    (Hmt : marn ≠ "")
    (Hms : env.master marn = some md0)
    (Hch : lookupd d "host" = some (.str hc))
    (Hmh : lookupd md0 "host" = some (.str hm))
    (Hmne : hm ≠ "")
    (Hdiff : hc ≠ hm)
    (Hrds : ∀ so, env.rdsLookup (firstLabel hc) = some so →
              so ≠ some (firstLabel hm)) :
    create_user_if_not_exists env d st =
      .error (.valueError ("Current database host " ++ hc ++
        " is not the same host as/rds replica of master " ++ hm), st) := by
  have htr : truthy (JVal.str marn) = true := by
    simp [truthy, Hmt]
  have hmh1 : lookupd (backfill md0 d) "host" = some (.str hm) := by
    rw [backfill_keeps d md0 "host" (by simp [getd, Hmh, truthy, Hmne])]
    exact Hmh
  have hmh2 : lookupd (setk (backfill md0 d) "dbname" (getd d "dbname")) "host" =
      some (.str hm) := by
    rw [lookupd_setk_ne _ "dbname" "host" _ (by decide)]
    exact hmh1
  have hne : JVal.str hc ≠ JVal.str hm := by
    simpa using Hdiff
  have hrds : is_rds_replica_database env d
      (setk (backfill md0 d) "dbname" (getd d "dbname")) = .ok false := by
    unfold is_rds_replica_database
    rw [Hch, hmh2]
    dsimp only
    rcases hrl : env.rdsLookup (firstLabel hc) with _ | so
    · rfl
    · simp [Hrds so hrl]
  simp [create_user_if_not_exists, Hma, htr, Hms, Hch, hmh2, hrds, hne, pyStr]

def d5 : SecretDict :=
  [("engine", .str "postgres"), ("host", .str "child.x"),
   ("username", .str "cu"), ("password", .str "cp"), ("masterarn", .str "ma")]

def md5 : SecretDict :=
  [("host", .str "master.x"), ("username", .str "mr"), ("password", .str "mp")]

def env5 : Env where
  net := fun _ _ => .ok
  master := fun s => if s = "ma" then some md5 else none
  rdsLookup := fun _ => none
  randomPw := "RPW"
  quoteIdent := id

def st5 : St := ⟨⟨[]⟩, 0, []⟩

/-- C5 witness: concrete cross-host child/master pair with an empty
replica directory. -/
theorem c5_witness :
    create_user_if_not_exists env5 d5 st5 =
      .error (.valueError "Current database host child.x is not the same host as/rds replica of master master.x", st5) :=
  c5_replica_policy env5 d5 md5 st5 "ma" "child.x" "master.x"
    rfl (by decide) rfl rfl rfl (by decide) (by decide)
    (fun so hso => nomatch hso)

/-- C6: under well-formed connection inputs (all keyword arguments
present, a parseable port) every authentication or network failure (a
`pg.InternalError`, never an "other" exception) makes `get_connection`
return normally — null rather than raising; in particular when the
credentials do not authenticate the result is null. -/
theorem c6_no_raise (env : Env) (d : SecretDict) (st : St)
    (h u p : String) (port : Int)
    (Hargs : connArgs d = .ok (h, u, p))
    (Hport : getPort d = .ok port)
    (Hn1 : env.net h true ≠ .errOther)
    (Hn2 : env.net h false ≠ .errOther) :
    resOk (get_connection env d st) = true ∧
    (st.db.roles.contains (u, p) = false →
      resConn (get_connection env d st) = false) := by
  rcases hcfg : get_ssl_config d with ⟨us, fb⟩
  cases us <;> cases fb <;>
    rcases hn1 : env.net h true with _ | _ | _ <;>
    rcases hn2 : env.net h false with _ | _ | _ <;>
    first
      | exact absurd hn1 Hn1
      | exact absurd hn2 Hn2
      | (by_cases hco : (u, p) ∈ st.db.roles <;>
          simp [get_connection, connect_and_authenticate, connect_plain,
                netAttempt, Hargs, Hport, hcfg, hn1, hn2, hco, resOk, resConn])

def st6 : St := ⟨⟨[]⟩, 0, []⟩

/-- C6 witness: a host whose SSL handshake fails and whose role catalog
is empty — every attempt fails, `get_connection` returns null. -/
theorem c6_witness :
    resOk (get_connection envC1 dC1 st6) = true ∧
    resConn (get_connection envC1 dC1 st6) = false := by
  have T := c6_no_raise envC1 dC1 st6 "h" "u" "p" 5432 rfl rfl (by decide) (by decide)
  exact ⟨T.1, T.2 rfl⟩

theorem contains_filter_ne (l : List String) (x y : String) (h : y ≠ x) :
    (l.filter (fun s => s != x)).contains y = l.contains y := by
  induction l with
  | nil => rfl
  | cons a tl ih =>
    by_cases ha : a = x
    · rw [List.filter_cons_of_neg (by simp [ha]), List.contains_cons]
      have hya : (y == a) = false := by
        simp [ha]
        exact h
      rw [hya, Bool.false_or, ih]
    · rw [List.filter_cons_of_pos (by simp [ha]), List.contains_cons,
          List.contains_cons, ih]

theorem contains_filter_self (l : List String) (x : String) :
    (l.filter (fun s => s != x)).contains x = false := by
  induction l with
  | nil => rfl
  | cons a tl ih =>
    by_cases ha : a = x
    · rw [List.filter_cons_of_neg (by simp [ha])]
      exact ih
    · rw [List.filter_cons_of_pos (by simp [ha]), List.contains_cons]
      simp [ih]
      exact fun hh => ha hh.symm

theorem find?_map_congr {α β : Type} (f : α → β) (p : β → Bool) (q : α → Bool)
    (h : ∀ a, p (f a) = q a) (l : List α) :
    (l.map f).find? p = (l.find? q).map f := by
  induction l with
  | nil => rfl
  | cons a tl ih =>
    cases hq : q a
    · rw [List.map_cons,
          List.find?_cons_of_neg _ (by simp [h a, hq]),
          List.find?_cons_of_neg _ (by simp [hq]),
          ih]
    · rw [List.map_cons,
          List.find?_cons_of_pos _ (by simp [h a, hq]),
          List.find?_cons_of_pos _ (by simp [hq])]
      rfl

theorem find?_false {α : Type} (l : List α) :
    l.find? (fun _ => false) = none := by
  induction l with
  | nil => rfl
  | cons a tl ih => rw [List.find?_cons_of_neg _ (by simp)]; exact ih

theorem versionMatches_strip (stage : String) (tok : Option String)
    (ver : Version) (hs : stage ≠ "AWSPENDING") :
    versionMatches stage tok (stripPending ver) = versionMatches stage tok ver := by
  unfold versionMatches stripPending
  rw [contains_filter_ne ver.stages "AWSPENDING" stage hs]

theorem versionMatches_strip_pending (tok : Option String) (ver : Version) :
    versionMatches "AWSPENDING" tok (stripPending ver) = false := by
  unfold versionMatches stripPending
  rw [contains_filter_self]
  simp

theorem validateDict_ok_iff (d : SecretDict) :
    validateDict d = .ok () ↔
      (hasKey d "host" = true ∧ hasKey d "username" = true ∧
       hasKey d "password" = true ∧ hasKey d "engine" = true ∧
       engineSupported (getd d "engine") = true) := by
  unfold validateDict requiredFields
  cases h1 : hasKey d "host" <;> cases h2 : hasKey d "username" <;>
    cases h3 : hasKey d "password" <;> cases h4 : hasKey d "engine" <;>
    simp [List.find?, h1, h2, h3, h4]

theorem validate_setk_password (d : SecretDict) (x : JVal)
    (h : validateDict d = .ok ()) :
    validateDict (setk d "password" x) = .ok () := by
  rw [validateDict_ok_iff] at h ⊢
  obtain ⟨h1, h2, h3, h4, h5⟩ := h
  refine ⟨?_, ?_, ?_, ?_, ?_⟩
  · unfold hasKey
    rw [lookupd_setk_ne _ _ _ _ (by decide)]
    exact h1
  · unfold hasKey
    rw [lookupd_setk_ne _ _ _ _ (by decide)]
    exact h2
  · unfold hasKey
    rw [lookupd_setk_eq]
    rfl
  · unfold hasKey
    rw [lookupd_setk_ne _ _ _ _ (by decide)]
    exact h4
  · rw [getd_setk_ne _ _ _ _ (by decide)]
    exact h5

/-- C7: `create_secret` is idempotent for a fixed (vault, token): when
CURRENT exists and is valid and no version carries the token yet, the
first call puts exactly one AWSPENDING version (CURRENT's record with the
fresh password) and a second call on the resulting vault performs no put
and leaves the vault unchanged, never overwriting the first PENDING. -/
theorem c7_create_idempotent (env : Env) (v : Vault) (token : String)
    (ver0 : Version)
    (H1 : findVersion v "AWSCURRENT" none = some ver0)
    (H1v : validateDict ver0.dict = .ok ())
    (H2 : findVersion v "AWSPENDING" (some token) = none)
    (H3 : ∀ ver ∈ v, ver.id ≠ token) :
    create_secret env v token =
      .ok (put_secret_value v token (setk ver0.dict "password" (.str env.randomPw)), true) ∧
    create_secret env
        (put_secret_value v token (setk ver0.dict "password" (.str env.randomPw))) token =
      .ok (put_secret_value v token (setk ver0.dict "password" (.str env.randomPw)), false) := by
  have hget1 : get_secret_dict v "AWSCURRENT" none false = .ok ver0.dict := by
    unfold get_secret_dict
    rw [H1]
    dsimp only
    rw [H1v]
    rfl
  have hget2 : get_secret_dict v "AWSPENDING" (some token) false = .error .notFound := by
    unfold get_secret_dict
    rw [H2]
  have hfilter : v.filter (fun ver => ver.id != token) = v :=
    List.filter_eq_self.mpr (fun a ha => by simpa using H3 a ha)
  have H1f : List.find? (versionMatches "AWSCURRENT" none) v = some ver0 := H1
  have hcur : findVersion
      (put_secret_value v token (setk ver0.dict "password" (.str env.randomPw)))
      "AWSCURRENT" none = some (stripPending ver0) := by
    unfold put_secret_value findVersion
    rw [hfilter, List.find?_append,
        find?_map_congr stripPending (versionMatches "AWSCURRENT" none)
          (versionMatches "AWSCURRENT" none)
          (fun a => versionMatches_strip "AWSCURRENT" none a (by decide)) v,
        H1f]
    rfl
  have hpend1 : findVersion
      (put_secret_value v token (setk ver0.dict "password" (.str env.randomPw)))
      "AWSPENDING" (some token) =
      some ⟨token, setk ver0.dict "password" (.str env.randomPw), ["AWSPENDING"]⟩ := by
    unfold put_secret_value findVersion
    rw [hfilter, List.find?_append,
        find?_map_congr stripPending (versionMatches "AWSPENDING" (some token))
          (fun _ => false)
          (fun a => versionMatches_strip_pending (some token) a) v,
        find?_false]
    simp [versionMatches, List.find?]
  have hvnd : validateDict (setk ver0.dict "password" (.str env.randomPw)) = .ok () :=
    validate_setk_password ver0.dict (.str env.randomPw) H1v
  have hget1b : get_secret_dict
      (put_secret_value v token (setk ver0.dict "password" (.str env.randomPw)))
      "AWSCURRENT" none false = .ok ver0.dict := by
    unfold get_secret_dict
    rw [hcur]
    dsimp only [stripPending]
    rw [H1v]
    rfl
  have hget2b : get_secret_dict
      (put_secret_value v token (setk ver0.dict "password" (.str env.randomPw)))
      "AWSPENDING" (some token) false =
      .ok (setk ver0.dict "password" (.str env.randomPw)) := by
    unfold get_secret_dict
    rw [hpend1]
    dsimp only
    rw [hvnd]
    rfl
  constructor
  · unfold create_secret
    rw [hget1, hget2]
  · unfold create_secret
    rw [hget1b, hget2b]

def vW7 : Vault := [⟨"v0", cdB, ["AWSCURRENT"]⟩]

/-- C7 witness: a one-version vault; the second `create_secret` call is a
no-put no-op. -/
theorem c7_witness :
    create_secret envB vW7 "tnew" =
      .ok (put_secret_value vW7 "tnew" (setk cdB "password" (.str envB.randomPw)), true) ∧
    create_secret envB
        (put_secret_value vW7 "tnew" (setk cdB "password" (.str envB.randomPw))) "tnew" =
      .ok (put_secret_value vW7 "tnew" (setk cdB "password" (.str envB.randomPw)), false) :=
  c7_create_idempotent envB vW7 "tnew" ⟨"v0", cdB, ["AWSCURRENT"]⟩ rfl rfl rfl (by decide)

theorem finishScan_token_current (token : String) :
    ∀ (v : Vault),
      (v.filter (fun ver => ver.stages.contains "AWSCURRENT")).length ≤ 1 →
      (∃ ver ∈ v, ver.id = token ∧ ver.stages.contains "AWSCURRENT" = true) →
      finishScan token v = none := by
  intro v
  induction v with
  | nil =>
    intro _ hex
    simp at hex
  | cons a tl ih =>
    intro hinv hex
    by_cases hc : a.stages.contains "AWSCURRENT" = true
    · have hft : tl.filter (fun ver => ver.stages.contains "AWSCURRENT") = [] := by
        rw [List.filter_cons_of_pos (by simpa using hc)] at hinv
        have hlen := Nat.le_of_succ_le_succ hinv
        exact List.eq_nil_of_length_eq_zero (Nat.le_zero.mp hlen)
      obtain ⟨ver, hmem, hid, hvc⟩ := hex
      have hva : ver = a := by
        rcases List.mem_cons.mp hmem with h | h
        · exact h
        · exfalso
          have hin : ver ∈ tl.filter (fun ver => ver.stages.contains "AWSCURRENT") :=
            List.mem_filter.mpr ⟨h, by simpa using hvc⟩
          rw [hft] at hin
          exact absurd hin (List.not_mem_nil ver)
      have hidt : (a.id == token) = true := by
        rw [← hva, hid]
        simp
      unfold finishScan
      rw [if_pos hc, if_pos hidt]
    · obtain ⟨ver, hmem, hid, hvc⟩ := hex
      have hvtl : ver ∈ tl := by
        rcases List.mem_cons.mp hmem with h | h
        · exact absurd (h ▸ hvc) hc
        · exact h
      have hinv2 : (tl.filter (fun ver => ver.stages.contains "AWSCURRENT")).length ≤ 1 := by
        rw [List.filter_cons_of_neg (by simpa using hc)] at hinv
        exact hinv
      unfold finishScan
      rw [if_neg hc]
      exact ih hinv2 ⟨ver, hvtl, hid, hvc⟩

theorem finishScan_no_token_current (token : String) :
    ∀ (v : Vault),
      (∀ ver ∈ v, ver.stages.contains "AWSCURRENT" = true → ver.id ≠ token) →
      finishScan token v = some (firstCurrentId v) := by
  intro v
  induction v with
  | nil => intro _; rfl
  | cons a tl ih =>
    intro hno
    by_cases hc : a.stages.contains "AWSCURRENT" = true
    · have hne : a.id ≠ token := hno a (List.mem_cons_self a tl) hc
      unfold finishScan firstCurrentId
      rw [if_pos hc, if_neg (by simpa using hne),
          List.find?_cons_of_pos _ (by simpa using hc)]
      rfl
    · unfold finishScan firstCurrentId
      rw [if_neg hc, List.find?_cons_of_neg _ (by simpa using hc)]
      exact ih (fun ver hm => hno ver (List.mem_cons_of_mem a hm))

/-- C8: under the data-model invariant that at most one version carries
AWSCURRENT, `finish_secret` is a no-op (no stage update issued) when the
token's version already carries AWSCURRENT; otherwise it issues exactly
one `update_secret_version_stage` call moving AWSCURRENT from the version
holding it (if any) to `token`. -/
theorem c8_finish_idempotent (v : Vault) (token : String)
    (hInv : (v.filter (fun ver => ver.stages.contains "AWSCURRENT")).length ≤ 1) :
    ((∃ ver ∈ v, ver.id = token ∧ ver.stages.contains "AWSCURRENT" = true) →
      finish_secret v token = (v, none)) ∧
    ((∀ ver ∈ v, ver.stages.contains "AWSCURRENT" = true → ver.id ≠ token) →
      finish_secret v token =
        (update_stage v token (firstCurrentId v), some (token, firstCurrentId v))) := by
  constructor
  · intro hex
    unfold finish_secret
    rw [finishScan_token_current token v hInv hex]
  · intro hno
    unfold finish_secret
    rw [finishScan_no_token_current token v hno]

def vW8 : Vault := [⟨"v1", [], ["AWSCURRENT"]⟩, ⟨"v2", [], ["AWSPENDING"]⟩]

/-- C8 witness: a CURRENT holder `v1` and a PENDING token version `v2`;
one atomic update moves AWSCURRENT from `v1` to `v2`. -/
theorem c8_witness :
    finish_secret vW8 "v2" =
      (update_stage vW8 "v2" (firstCurrentId vW8), some ("v2", firstCurrentId vW8)) :=
  (c8_finish_idempotent vW8 "v2" (by decide)).2 (by decide)

theorem mem_log_of_connOnly {st st' : St} (h : connOnly st st') {a : Action}
    (ha : a ∈ st.log) : a ∈ st'.log := by
  obtain ⟨_, t, hl, _⟩ := h
  rw [hl]
  exact List.mem_append_left t ha

theorem caa_true_logs_attempt (env : Env) (d : SecretDict) (dn : JVal)
    (port : Int) (st : St) (h u p : String)
    (Hargs : connArgs d = .ok (h, u, p)) :
    Action.connAttempt (.str h) (.str u) dn port true
      ∈ (resSt (connect_and_authenticate env d dn port true st)).log := by
  have hmem : Action.connAttempt (.str h) (.str u) dn port true
      ∈ (recordAttempt st (.str h) (.str u) dn port true).log := by
    simp
  unfold connect_and_authenticate
  rw [if_pos rfl, Hargs]
  dsimp only
  rcases hn : netAttempt env st.db h u p true with _ | _ | e
  · exact hmem
  · exact mem_log_of_connOnly (connect_plain_connOnly env d dn port _) hmem
  · exact mem_log_of_connOnly (connect_plain_connOnly env d dn port _) hmem

theorem get_connection_logs_ssl_attempt (env : Env) (d : SecretDict) (st : St)
    (h u p : String) (port : Int) (dn : JVal)
    (Hargs : connArgs d = .ok (h, u, p))
    (Hport : getPort d = .ok port)
    (Hssl : (get_ssl_config d).1 = true)
    (Hdb : (lookupd d "dbname").getD (.str "postgres") = dn) :
    Action.connAttempt (.str h) (.str u) dn port true
      ∈ (resSt (get_connection env d st)).log := by
  have hbase := caa_true_logs_attempt env d dn port st h u p Hargs
  unfold get_connection
  rw [Hport]
  dsimp only
  rw [Hdb, Hssl]
  rcases hc : connect_and_authenticate env d dn port true st with ⟨e, s⟩ | ⟨b, s⟩ <;>
    rw [hc] at hbase
  · exact hbase
  · cases b
    · dsimp only
      split
      · exact mem_log_of_connOnly (connect_plain_connOnly env d dn port s) hbase
      · exact hbase
    · exact hbase

theorem createUserConnect_mem_log (env : Env) (d md : SecretDict)
    (marn : String) (st : St) (a : Action)
    (ha : a ∈ (resSt (get_connection env md st)).log) :
    a ∈ (resSt (createUserConnect env d md marn st)).log := by
  unfold createUserConnect
  rcases hc : get_connection env md st with ⟨e, s⟩ | ⟨b, s⟩ <;> rw [hc] at ha
  · simp only [hc]
    exact ha
  · cases b
    · simp only [hc]
      exact ha
    · simp only [hc]
      split
      · exact ha
      · rename_i uv huv
        split
        · unfold createUserFinishLog
          split
          · exact ha
          · exact ha
        · split
          · exact ha
          · rename_i pv hpv
            unfold createUserFinishLog
            split
            · exact List.mem_append_left _ ha
            · exact List.mem_append_left _ ha

/-- A child secret with the required fields and a master reference but no
`dbname` key. -/
def childNoDbname (h u p a : String) : SecretDict :=
  [("engine", .str "postgres"), ("host", .str h), ("username", .str u),
   ("password", .str p), ("masterarn", .str a)]

/-- The master record after backfill and the dbname override, for
`childNoDbname`. -/
def masterAfterPrep (h a mu mp : String) : SecretDict :=
  [("username", .str mu), ("password", .str mp), ("engine", .str "postgres"),
   ("host", .str h), ("masterarn", .str a), ("dbname", JVal.null)]

/-- C10: for a child secret lacking `dbname`, `create_user_if_not_exists`
sets the master record's `dbname` entry to Python `None`, and because
`get_connection` substitutes the default "postgres" only when the key is
absent, the master connection is attempted with database name `None`
(the `JVal.null` marker) rather than "postgres". -/
theorem c10_dbname_none (env : Env) (st : St) (h u p a mu mp : String)
    (Ha : a ≠ "") (Hmu : mu ≠ "") (Hmp : mp ≠ "")
    (Hms : env.master a = some [("username", .str mu), ("password", .str mp)]) :
    Action.connAttempt (.str h) (.str mu) JVal.null 5432 true
      ∈ (resSt (create_user_if_not_exists env (childNoDbname h u p a) st)).log ∧
    JVal.null ≠ JVal.str "postgres" := by
  refine ⟨?_, by decide⟩
  have hmu' : (mu == "") = false := by simp [Hmu]
  have hmp' : (mp == "") = false := by simp [Hmp]
  have hmd : setk (backfill [("username", .str mu), ("password", .str mp)]
        (childNoDbname h u p a)) "dbname" (getd (childNoDbname h u p a) "dbname") =
      masterAfterPrep h a mu mp := by
    simp [backfill, childNoDbname, masterAfterPrep, setk, getd, lookupd, hasKey,
      truthy, List.find?, Hmu, Hmp, hmu', hmp']
  have hred : create_user_if_not_exists env (childNoDbname h u p a) st =
      createUserConnect env (childNoDbname h u p a) (masterAfterPrep h a mu mp) a st := by
    unfold create_user_if_not_exists
    rw [show lookupd (childNoDbname h u p a) "masterarn" = some (.str a) from rfl]
    dsimp only
    rw [if_pos (show truthy (.str a) = true by simp [truthy, Ha]), Hms]
    dsimp only
    rw [hmd]
    rw [show lookupd (childNoDbname h u p a) "host" = some (.str h) from rfl,
        show lookupd (masterAfterPrep h a mu mp) "host" = some (.str h) from rfl]
    dsimp only
    rw [if_neg (by simp)]
  rw [hred]
  apply createUserConnect_mem_log
  exact get_connection_logs_ssl_attempt env (masterAfterPrep h a mu mp) st h mu mp
    5432 JVal.null rfl rfl rfl rfl

def envW10 : Env where
  net := fun _ _ => .ok
  master := fun s =>
    if s = "ma10" then some [("username", .str "mu"), ("password", .str "mp")]
    else none
  rdsLookup := fun _ => none
  randomPw := "RPW"
  quoteIdent := id

def st10 : St := ⟨⟨[]⟩, 0, []⟩

/-- C10 witness: a concrete dbname-less child; the master connection
attempt carries the `None` database name. -/
theorem c10_witness :
    Action.connAttempt (.str "hw") (.str "mu") JVal.null 5432 true
      ∈ (resSt (create_user_if_not_exists envW10
          (childNoDbname "hw" "uw" "pw" "ma10") st10)).log :=
  (c10_dbname_none envW10 st10 "hw" "uw" "pw" "ma10" "mu" "mp"
    (by decide) (by decide) (by decide) rfl).1

end Rot
